import Mathlib

/-!
Verification development for the `available-domains` domain-finder tool.

The definitions below are shallow embeddings of the Python sources
(`src/domain_finder.py`, `src/porkbun_api.py`, `src/dynadot_api.py`).
Network, file-system and clock effects are made explicit: an HTTP call is
modelled by a value describing the response the network produced, the
wall clock is an explicit rational-number field threaded through the
rate-limiter state, and the pandas DataFrame ledger is a list of records.
Each definition cites the file and line range it was translated from.
-/

namespace DomainFinder

/-! ## String helpers

Python's substring test `pat in s` (used on provider notes and response
bodies) is modelled by an explicit character-list scan. -/

/-- `charsIsPrefixOf p c` decides whether `p` is a prefix of `c`. -/
def charsIsPrefixOf : List Char → List Char → Bool
  | [], _ => true
  | _ :: _, [] => false
  | p :: ps, c :: cs => p == c && charsIsPrefixOf ps cs

/-- `charsContains pat l` decides whether `pat` occurs contiguously in `l`
(Python's `pat in s` on strings; the empty pattern always matches). -/
def charsContains (pat : List Char) : List Char → Bool
  | [] => pat.isEmpty
  | c :: cs => charsIsPrefixOf pat (c :: cs) || charsContains pat cs

/-- Python `pat in s` for strings. -/
def containsSub (s pat : String) : Bool :=
  charsContains pat.toList s.toList

/-! ## Candidate generator — `domain_finder.py` lines 144-214 (`generate_domains`) -/

/-- `string.ascii_lowercase` (`domain_finder.py` line 46 context). -/
def asciiLowercase : String := "abcdefghijklmnopqrstuvwxyz"

/-- `string.digits` (`domain_finder.py` line 44). -/
def digitsStr : String := "0123456789"

/-- `domain_finder.py` lines 169-176: the optional `pattern` argument
replaces the character set with letters and/or digits ('l' adds lowercase
letters, 'd' adds digits; an empty resulting set keeps the original). -/
def applyPattern (characters : String) : Option String → String
  | none => characters
  | some p =>
    let pl := p.toLower
    let charSet := (if pl.contains 'l' then asciiLowercase else "")
      ++ (if pl.contains 'd' then digitsStr else "")
    if charSet == "" then characters else charSet

/-- `itertools.product(characters, repeat=n)` (`domain_finder.py` line 198):
all `n`-tuples over `chars` in product order, leftmost position varying
slowest. -/
def productCombos (chars : List Char) : Nat → List (List Char)
  | 0 => [[]]
  | n + 1 => chars.flatMap (fun c => (productCombos chars n).map (fun t => c :: t))

/-- `domain_finder.py` line 200: `f"{prefix}{domain_part}{suffix}{tld}"`. -/
def mkDomain (pre suf tld : String) (body : List Char) : String :=
  pre ++ String.mk body ++ suf ++ tld

/-- The generation loop of `domain_finder.py` lines 195-211: walk the
combinations, skip domains in the exclude set, and stop once `limit > 0`
accepted results have been collected (the check happens after appending). -/
def genLoop (mkDom : List Char → String) (excludeSet : List String)
    (limit : Int) : List (List Char) → Int → List String
  | [], _ => []
  | combo :: rest, count =>
    let d := mkDom combo
    if excludeSet.contains d then genLoop mkDom excludeSet limit rest count
    else if limit > 0 ∧ count + 1 ≥ limit then [d]
    else d :: genLoop mkDom excludeSet limit rest (count + 1)

/-- `generate_domains` (`domain_finder.py` lines 144-214): apply the
pattern, reject non-positive lengths (lines 181-183 log an error and
return the empty list), then run the generation loop over the product
combinations. -/
def generateDomains (characters : String) (len limit : Int)
    (pre suf tld : String) (excludeSet : List String)
    (pat : Option String) : List String :=
  let chars := applyPattern characters pat
  if len ≤ 0 then []
  else genLoop (mkDomain pre suf tld) excludeSet limit
    (productCombos chars.toList len.toNat) 0

/-- `domain_finder.py` lines 181-182: `generate_domains` logs the
configuration error "域名长度必须大于0" exactly when the effective length
is not positive. -/
def generateDomainsConfigError (len : Int) : Bool := decide (len ≤ 0)

/-! ## DNS checker — `domain_finder.py` lines 217-236 (`dns_check`) -/

/-- Outcome of `socket.gethostbyname(domain)`: the call returns an
address, raises `socket.gaierror` (no such name), or raises some other
exception. -/
inductive ResolveOutcome where
  | resolved
  | gaiError
  | otherError (msg : String)
  deriving DecidableEq

/-- `dns_check` (`domain_finder.py` lines 217-236). Every branch returns
a triple; no exception escapes. -/
def dnsCheck (domain : String) (o : ResolveOutcome) :
    String × Bool × Option String :=
  match o with
  | .resolved => (domain, true, none)
  | .gaiError => (domain, false, none)
  | .otherError msg => (domain, true, some ("DNS查询错误: " ++ msg))

/-! ## Ledger — the `checked_domains` DataFrame

The pandas DataFrame holding one row per domain is modelled as a list of
records in row order.  `available` is an `Option Bool` because the
parallel merge (`domain_finder.py` line 656) writes the raw API result,
which can be Python `None`. -/

/-- One row of the checked-domains DataFrame (`domain_finder.py`
lines 487-493 give the row shape). -/
structure CheckRecord where
  domain : String
  dns_checked : Bool
  api_verified : Bool
  available : Option Bool
  note : String
  deriving DecidableEq, Repr

/-- `domain_finder.py` lines 487-498: the row built by `run_dns_batch`
for one `dns_check` result. -/
def dnsRecord (domain : String) (isRegistered : Bool)
    (err : Option String) : CheckRecord :=
  { domain := domain
    dns_checked := true
    api_verified := false
    available := some (!isRegistered)
    note := match err with
      | some e => e
      | none => if isRegistered then "已注册" else "DNS无记录，可能可用" }

/-- `run_dns_batch` (`domain_finder.py` lines 446-504): every domain is
probed and yields exactly one new row; a probe error never aborts the
batch.  The worker pool's completion-order nondeterminism is modelled by
submission order (the properties verified here are order-independent),
and `resolve` gives each domain's resolution outcome. -/
def runDnsBatch (resolve : String → ResolveOutcome)
    (domains : List String) : List CheckRecord :=
  domains.map fun d =>
    let r := dnsCheck d (resolve d)
    dnsRecord r.1 r.2.1 r.2.2

/-- `domain_finder.py` line 503: `pd.concat` appends the new DNS rows
after the already-loaded rows. -/
def dnsConcat (df newRows : List CheckRecord) : List CheckRecord :=
  df ++ newRows

/-- `domain_finder.py` lines 796-798 and 806-816: when `generate_domains`
returns no domains, `main` returns before `run_dns_batch` and
`save_checked_domains`, leaving the loaded ledger untouched; otherwise
the DNS stage transforms it. -/
def mainLedgerAfterGenerate (ledger : List CheckRecord)
    (domains : List String)
    (dnsStage : List CheckRecord → List CheckRecord) : List CheckRecord :=
  if domains.isEmpty then ledger else dnsStage ledger

/-! ## API verification stages — `domain_finder.py` lines 542-703

`api_check` performs one network round trip; its observable outcome is
either a `(is_available, note)` pair or a raised exception.  The
environment `env : Nat → ApiCallOutcome` returns the outcome of the
`k`-th API call issued. -/

/-- Outcome of one `api_check` call (`domain_finder.py` lines 239-271):
a returned pair (`is_available` may be Python `None`, the rate-limit
marker) or an exception propagating out of the call. -/
inductive ApiCallOutcome where
  | ok (avail : Option Bool) (note : String)
  | exc (msg : String)
  deriving DecidableEq

/-- `domain_finder.py` lines 572-583: the masked in-place update done by
the sequential verifier for one domain — `api_verified` is set to `True`
unconditionally, `available` to the truthiness of `is_available`, and
`note` to the provider note. -/
def seqUpdate (df : List CheckRecord) (domain : String)
    (avail : Option Bool) (note : String) : List CheckRecord :=
  df.map fun r =>
    if r.domain == domain then
      { r with api_verified := true
               available := some (avail == some true)
               note := note }
    else r

/-- `run_sequential_api_verification` (`domain_finder.py` lines 542-595):
for each domain one API call is made; a `None` result whose note carries
the rate-limit marker "速率限制" triggers one blocking retry (lines
566-570) whose outcome is what gets recorded; an exception skips the
update for that domain (lines 590-593).  Returns the updated ledger and
the next call index. -/
def runSeqVerify (env : Nat → ApiCallOutcome) :
    List String → List CheckRecord → Nat → List CheckRecord × Nat
  | [], df, k => (df, k)
  | d :: rest, df, k =>
    match env k with
    | .exc _ => runSeqVerify env rest df (k + 1)
    | .ok avail note =>
      if avail.isNone && containsSub note "速率限制" then
        match env (k + 1) with
        | .exc _ => runSeqVerify env rest df (k + 2)
        | .ok a2 n2 => runSeqVerify env rest (seqUpdate df d a2 n2) (k + 2)
      else runSeqVerify env rest (seqUpdate df d avail note) (k + 1)

/-- `process_api_batch` (`domain_finder.py` lines 661-703): the lane
function of the parallel strategy.  Every domain in the lane's queue gets
exactly one API call; an exception is caught and recorded as a
`(domain, False, "API验证出错: ...")` result and the loop continues.
Returns the lane's result list and the next call index. -/
def processApiBatch (env : Nat → ApiCallOutcome) :
    List String → Nat → List (String × Option Bool × String) × Nat
  | [], k => ([], k)
  | d :: rest, k =>
    let step : String × Option Bool × String :=
      match env k with
      | .ok avail note => (d, avail, note)
      | .exc msg => (d, some false, "API验证出错: " ++ msg)
    let tail := processApiBatch env rest (k + 1)
    (step :: tail.1, tail.2)

/-- `run_parallel_api_verification` (`domain_finder.py` lines 651-657):
fold the collected lane results into the ledger — `api_verified` is set
to `True`, `available` to the raw result (possibly `None`), `note` to the
note, on every row whose domain matches. -/
def parallelMergeStep (acc : List CheckRecord)
    (res : String × Option Bool × String) : List CheckRecord :=
  acc.map fun r =>
    if r.domain == res.1 then
      { r with api_verified := true
               available := res.2.1
               note := res.2.2 }
    else r

/-- The loop of `domain_finder.py` lines 652-657, folding every lane
result into the ledger. -/
def parallelMerge (df : List CheckRecord)
    (results : List (String × Option Bool × String)) : List CheckRecord :=
  results.foldl parallelMergeStep df

/-! ## Porkbun checkers

The JSON body of a Porkbun response is modelled by the fields the code
reads: `status`, `response.avail`, `response.price`, `message` (each
`none` when the key is absent). -/

/-- Parsed Porkbun response body (`data.get(...)` reads in
`domain_finder.py` lines 300-308 and `porkbun_api.py` lines 91-104). -/
structure PbData where
  status : Option String
  avail : Option String
  price : Option String
  message : Option String
  deriving DecidableEq

/-- Network outcome of the `requests.post` in `porkbun_check`
(`domain_finder.py` lines 297-316): a response with status code, body
text and JSON-parse outcome, or an exception raised by the request call
(the function has a single blanket `except Exception`, which also
catches the `response.json()` decode failure — modelled by
`Except.error` in the `resp` case). -/
inductive PbFinderHttp where
  | resp (status : Nat) (text : String) (json : Except String PbData)
  | exc (msg : String)

/-- `porkbun_check` (`domain_finder.py` lines 273-316). -/
def porkbunCheck (domain : String) (env : PbFinderHttp) :
    String × Option Bool × String :=
  match env with
  | .exc msg => (domain, some false, "Porkbun请求异常: " ++ msg)
  | .resp status text json =>
    if status == 200 then
      match json with
      | .error msg => (domain, some false, "Porkbun请求异常: " ++ msg)
      | .ok data =>
        if data.status == some "SUCCESS" then
          (domain, some (data.avail == some "yes"),
            "Porkbun价格: " ++ data.price.getD "未知")
        else
          (domain, some false, "Porkbun API错误: " ++ data.message.getD "未知错误")
    else if status == 400 && containsSub text "within 10 seconds used" then
      (domain, none, "Porkbun速率限制")
    else
      (domain, some false, "Porkbun HTTP错误: " ++ toString status)

/-- Network outcome for `PorkbunAPI.check_domain` (`porkbun_api.py`
lines 85-121), which distinguishes timeout / request-exception / other
exception. -/
inductive PbApiHttp where
  | resp (status : Nat) (text : String) (json : Except String PbData)
  | timeout
  | reqExc (msg : String)
  | otherExc (msg : String)

/-- `PorkbunAPI.check_domain` (`porkbun_api.py` lines 52-121), as a
function of the network outcome (the returned pair does not depend on the
credentials or on the ".com"-completion of the queried name). -/
def pbCheckDomain (env : PbApiHttp) : Option Bool × String :=
  match env with
  | .timeout => (some false, "请求超时")
  | .reqExc msg => (some false, "请求异常: " ++ msg)
  | .otherExc msg => (some false, "未知错误: " ++ msg)
  | .resp status text json =>
    if status == 200 then
      match json with
      | .error _ => (some false, "JSON解析错误: " ++ text.take 100 ++ "...")
      | .ok data =>
        if data.status == some "SUCCESS" then
          if data.avail == some "yes" then
            (some true, "价格: " ++ data.price.getD "未知")
          else (some false, "域名已注册")
        else (some false, "API错误: " ++ data.message.getD "未知错误")
    else if status == 400 && containsSub text "within 10 seconds used" then
      (none, "Porkbun速率限制")
    else
      (some false, "HTTP错误 " ++ toString status ++ ": " ++ text.take 100 ++ "...")

/-- `porkbun_api.py` / `dynadot_api.py` line 144 resp. 150: a note counts
towards the consecutive-error circuit breaker when it contains "错误"
(error) or "异常" (exception). -/
def errNote (note : String) : Bool :=
  containsSub note "错误" || containsSub note "异常"

/-- `PorkbunAPI.batch_check` (`porkbun_api.py` lines 123-160): check the
domains one by one (a rate-limited `None` result is retried once, lines
141-145), collect `(domain, result)` pairs in order, and abort the loop
once `max_errors` consecutive results carry an error note — keeping the
results already collected.  `env k` is the network outcome of the `k`-th
`check_domain` call; the second component of the result is the next call
index, `consec` the running consecutive-error count. -/
def batchCheck (env : Nat → PbApiHttp) (maxErrors : Nat) :
    List String → Nat → Nat → List (String × Option Bool × String) × Nat
  | [], k, _ => ([], k)
  | d :: rest, k, consec =>
    let first := pbCheckDomain (env k)
    let retried :=
      if first.1.isNone && containsSub first.2 "速率限制" then
        (pbCheckDomain (env (k + 1)), k + 2)
      else (first, k + 1)
    let res := retried.1
    let k' := retried.2
    if errNote res.2 then
      if consec + 1 ≥ maxErrors then ([(d, res.1, res.2)], k')
      else
        let tail := batchCheck env maxErrors rest k' (consec + 1)
        ((d, res.1, res.2) :: tail.1, tail.2)
    else
      let tail := batchCheck env maxErrors rest k' 0
      ((d, res.1, res.2) :: tail.1, tail.2)

/-! ## Dynadot checkers

The JSON body of a Dynadot response, as read by the code: an optional
top-level `error`, an optional `SearchResponse` with an optional `Error`
and an optional `SearchResults` list of entries carrying optional
`Available` / `Price` / `Currency` strings.  (A non-list `SearchResults`
falls through to the same "格式异常" branch as an empty list, so it is
modelled by the empty list.) -/

/-- One entry of `SearchResponse.SearchResults`. -/
structure DynResult where
  availableStr : Option String
  price : Option String
  currency : Option String
  deriving DecidableEq

/-- The `SearchResponse` object. -/
structure DynSearch where
  err : Option String
  searchResults : Option (List DynResult)
  deriving DecidableEq

/-- Parsed Dynadot response body. -/
structure DynData where
  error : Option String
  searchResponse : Option DynSearch
  deriving DecidableEq

/-- Network outcome of the `requests.get` in `dynadot_check`
(`domain_finder.py` lines 344-387; a single blanket `except Exception`,
with the JSON decode failure caught separately inside the 200 branch). -/
inductive DynFinderHttp where
  | resp (status : Nat) (text : String) (json : Except String DynData)
  | exc (msg : String)

/-- Shared result-parsing of a 200-status Dynadot body, `domain_finder.py`
lines 349-380 / `dynadot_api.py` lines 80-111: sequential checks for a
top-level error, a `SearchResponse.Error`, then the first search result
("yes" in `Available`, case-insensitively, means available); anything
else is a format error. -/
def dynParse (data : DynData) (tag okNote fmtNote regNote : String)
    (priceNote : String → String → String) : Option Bool × String :=
  match data.error with
  | some e => (some false, tag ++ e)
  | none =>
    match data.searchResponse with
    | none => (some false, fmtNote)
    | some sr =>
      match sr.err with
      | some e => (some false, tag ++ e)
      | none =>
        match sr.searchResults with
        | some (r :: _) =>
          if (r.availableStr.getD "no").toLower == "yes" then
            (some true, okNote ++ priceNote (r.price.getD "未知") (r.currency.getD "USD"))
          else (some false, regNote)
        | some [] => (some false, fmtNote)
        | none => (some false, fmtNote)

/-- `dynadot_check` (`domain_finder.py` lines 318-387).  `apiKey` is
`config.get('api_key')`; Python's falsiness test accepts a missing key or
an empty string. -/
def dynadotCheck (domain : String) (apiKey : Option String)
    (env : DynFinderHttp) : String × Option Bool × String :=
  if apiKey.getD "" == "" then
    (domain, some false, "未提供Dynadot API密钥")
  else
    match env with
    | .exc msg => (domain, some false, "Dynadot请求异常: " ++ msg)
    | .resp status text json =>
      if status == 200 then
        match json with
        | .error _ =>
          (domain, some false, "Dynadot JSON解析错误: " ++ text.take 100 ++ "...")
        | .ok data =>
          let r := dynParse data "Dynadot API错误: " "Dynadot价格: "
            "Dynadot API返回格式异常" "Dynadot: 域名已注册"
            (fun p c => p ++ " " ++ c)
          (domain, r.1, r.2)
      else (domain, some false, "Dynadot HTTP错误: " ++ toString status)

/-- Network outcome for `DynadotAPI.check_domain` (`dynadot_api.py`
lines 74-123), distinguishing timeout / request exception / other. -/
inductive DynApiHttp where
  | resp (status : Nat) (text : String) (json : Except String DynData)
  | timeout
  | reqExc (msg : String)
  | otherExc (msg : String)

/-- `DynadotAPI.check_domain` (`dynadot_api.py` lines 50-123), as a
function of the network outcome. -/
def dynCheckDomain (env : DynApiHttp) : Option Bool × String :=
  match env with
  | .timeout => (some false, "请求超时")
  | .reqExc msg => (some false, "请求异常: " ++ msg)
  | .otherExc msg => (some false, "未知错误: " ++ msg)
  | .resp status text json =>
    if status == 200 then
      match json with
      | .error _ => (some false, "JSON解析错误: " ++ text.take 100 ++ "...")
      | .ok data =>
        dynParse data "API错误: " "价格: " "API返回格式异常" "域名已注册"
          (fun p c => p ++ " " ++ c)
    else
      (some false, "HTTP错误 " ++ toString status ++ ": " ++ text.take 100 ++ "...")

/-! ## Ledger load — `domain_finder.py` lines 390-417 (`load_checked_domains`) -/

/-- A backfilled cell value: pandas assigns a whole-column constant. -/
inductive CellValue where
  | str (s : String)
  | boolVal (b : Bool)
  deriving DecidableEq

/-- Provenance of a column after loading: read from the file, or created
by the back-fill loop with a constant value. -/
inductive ColContent where
  | fromFile
  | filled (v : CellValue)
  deriving DecidableEq

/-- `domain_finder.py` line 404: the columns the loader checks for. -/
def requiredColumns : List String :=
  ["domain", "dns_checked", "api_verified", "available"]

/-- `domain_finder.py` lines 403-407: for each required column missing
from the loaded frame, append a column filled with `False` (or `""` for
`domain`).  `cols` are the column names present in the CSV file. -/
def ensureRequired (cols : List String) : List (String × ColContent) :=
  cols.map (fun c => (c, ColContent.fromFile)) ++
    requiredColumns.filterMap fun c =>
      if cols.contains c then none
      else some (c, ColContent.filled
        (if c == "domain" then CellValue.str "" else CellValue.boolVal false))

/-- The column names of the frame returned by `load_checked_domains` for
an existing, readable file whose header is `cols`. -/
def loadedColumns (cols : List String) : List String :=
  (ensureRequired cols).map Prod.fst

/-! ## Provider rate limiting — `porkbun_api.py` lines 38-50
(`_respect_rate_limit`; `dynadot_api.py` lines 38-48 is identical up to
the interval constant)

Wall-clock time is explicit: `now` is the value `time.time()` would
return, `last` is `self.last_request_time`.  `time.sleep(d)` advances
`now` by `d`. -/

/-- Clock and rate-limiter state of one provider client. -/
structure RateState where
  now : ℚ
  last : ℚ
  deriving DecidableEq

/-- `_respect_rate_limit` (`porkbun_api.py` lines 40-50): if less than
`rl` seconds elapsed since the previous request, sleep the difference;
then stamp `last_request_time` with the current time. -/
def respectRateLimit (rl : ℚ) (st : RateState) : RateState :=
  let elapsed := st.now - st.last
  let afterSleep := if elapsed < rl then st.now + (rl - elapsed) else st.now
  { now := afterSleep, last := afterSleep }

/-- A lane of consecutive `check_domain` calls through one provider
client (`porkbun_api.py` lines 52-121 entered once per domain): each call
first runs `_respect_rate_limit`, then the network round trip takes
`d ≥ 0` seconds.  Returns the time at which each request was issued and
the final state. -/
def laneRun (rl : ℚ) : List ℚ → RateState → List ℚ × RateState
  | [], st => ([], st)
  | d :: ds, st =>
    let st1 := respectRateLimit rl st
    let tail := laneRun rl ds { now := st1.now + d, last := st1.last }
    (st1.now :: tail.1, tail.2)

/-! ## Generator lemmas -/

theorem strData_append : ∀ (a b : String), (a ++ b).data = a.data ++ b.data
  | ⟨_⟩, ⟨_⟩ => rfl

theorem mem_productCombos_length {chars : List Char} :
    ∀ {n : Nat} {t : List Char}, t ∈ productCombos chars n → t.length = n := by
  intro n
  induction n with
  | zero =>
    intro t ht
    simp only [productCombos, List.mem_singleton] at ht
    simp [ht]
  | succ n ih =>
    intro t ht
    simp only [productCombos, List.mem_flatMap, List.mem_map] at ht
    obtain ⟨c, -, t', ht', rfl⟩ := ht
    simp [ih ht']

theorem productCombos_nodup {chars : List Char} (h : chars.Nodup) :
    ∀ n, (productCombos chars n).Nodup := by
  intro n
  induction n with
  | zero => simp [productCombos]
  | succ n ih =>
    rw [productCombos, List.nodup_flatMap]
    refine ⟨fun c _ => ih.map fun a b hab => ?_, ?_⟩
    · injection hab
    · refine h.imp fun hab => ?_
      intro x hx hy
      simp only [List.mem_map] at hx hy
      obtain ⟨t1, -, rfl⟩ := hx
      obtain ⟨t2, -, h2⟩ := hy
      injection h2 with hh ht
      exact hab hh.symm

theorem mkDomain_inj_on (pre suf tld : String) {n : Nat} {t1 t2 : List Char}
    (h1 : t1.length = n) (h2 : t2.length = n)
    (he : mkDomain pre suf tld t1 = mkDomain pre suf tld t2) : t1 = t2 := by
  have hd := congrArg String.data he
  simp only [mkDomain, strData_append, List.append_assoc] at hd
  have h3 := (List.append_inj hd rfl).2
  exact (List.append_inj h3 (h1.trans h2.symm)).1

theorem genLoop_sublist (mkDom : List Char → String) (ex : List String)
    (limit : Int) :
    ∀ (l : List (List Char)) (count : Int),
      List.Sublist (genLoop mkDom ex limit l count) (l.map mkDom) := by
  intro l
  induction l with
  | nil => intro count; simp [genLoop]
  | cons c rest ih =>
    intro count
    simp only [genLoop, List.map_cons]
    split
    · exact (ih count).cons _
    · split
      · exact (List.nil_sublist _).cons₂ _
      · exact (ih (count + 1)).cons₂ _

theorem genLoop_not_excluded (mkDom : List Char → String) (ex : List String)
    (limit : Int) :
    ∀ (l : List (List Char)) (count : Int) (d : String),
      d ∈ genLoop mkDom ex limit l count → d ∉ ex := by
  intro l
  induction l with
  | nil => intro count d hd; simp [genLoop] at hd
  | cons c rest ih =>
    intro count d hd
    simp only [genLoop] at hd
    split at hd
    · exact ih count d hd
    · rename_i hcon
      split at hd
      · simp only [List.mem_singleton] at hd
        subst hd
        intro hm
        exact hcon (by simpa using hm)
      · rcases List.mem_cons.mp hd with rfl | hd'
        · intro hm
          exact hcon (by simpa using hm)
        · exact ih (count + 1) d hd'

theorem genLoop_no_limit (mkDom : List Char → String) :
    ∀ (l : List (List Char)) (count : Int),
      genLoop mkDom [] 0 l count = l.map mkDom := by
  intro l
  induction l with
  | nil => intro count; simp [genLoop]
  | cons c rest ih =>
    intro count
    simp only [genLoop, List.map_cons, List.contains_nil]
    rw [if_neg (by simp), if_neg (by omega), ih (count + 1)]

/-! ## Claim theorems: generator -/

/-- C3 (counterexample): with the alphabet `"aa"` — a repeated character —
`generate_domains` emits the same domain twice, so the claim that the
Generator's output never contains duplicates for every valid input fails
on the code. -/
theorem generateDomains_dup_counterexample :
    ¬ (generateDomains "aa" 1 0 "" "" ".com" [] none).Nodup := by decide

/-- C3 (amended): no emitted domain belongs to the exclude set,
unconditionally; and provided the effective alphabet has
pairwise-distinct characters, the Generator's output has no
duplicates. -/
theorem generateDomains_nodup_and_excludes (characters : String)
    (len limit : Int) (pre suf tld : String) (excludeSet : List String)
    (pat : Option String) (d : String)
    (hd : d ∈ generateDomains characters len limit pre suf tld excludeSet pat) :
    d ∉ excludeSet ∧
      ((applyPattern characters pat).toList.Nodup →
        (generateDomains characters len limit pre suf tld excludeSet pat).Nodup) := by
  constructor
  · revert hd
    unfold generateDomains
    split
    · simp
    · intro hd
      exact genLoop_not_excluded _ _ _ _ _ d hd
  · intro h
    unfold generateDomains
    split
    · simp
    · refine (genLoop_sublist _ _ _ _ _).nodup ?_
      refine (productCombos_nodup h _).map_on ?_
      intro t1 h1 t2 h2 he
      exact mkDomain_inj_on pre suf tld
        (mem_productCombos_length h1) (mem_productCombos_length h2) he

/-- C3 (witness for the amended theorem). -/
theorem generateDomains_nodup_and_excludes_witness :
    "ab.com" ∉ ["aa.com"] ∧
      ((applyPattern "ab" none).toList.Nodup →
        (generateDomains "ab" 2 0 "" "" ".com" ["aa.com"] none).Nodup) :=
  generateDomains_nodup_and_excludes "ab" 2 0 "" "" ".com" ["aa.com"] none
    "ab.com" (by decide)

/-- C6: the Generator enumerates `alphabet^length` in lexicographic
product order (leftmost slowest) — with no limit and no exclusions the
output is exactly the product-order enumeration — and in particular
`generate_domains("ab", 2, 3, tld=".com")` is
`["aa.com", "ab.com", "ba.com"]`. -/
theorem generateDomains_product_order (characters : String) (len : Int)
    (pre suf tld : String) (hlen : 0 < len) :
    generateDomains characters len 0 pre suf tld [] none =
        (productCombos characters.toList len.toNat).map (mkDomain pre suf tld) ∧
      generateDomains "ab" 2 3 "" "" ".com" [] none =
        ["aa.com", "ab.com", "ba.com"] := by
  constructor
  · unfold generateDomains
    rw [if_neg (by omega)]
    exact genLoop_no_limit _ _ _
  · decide

/-- C6 (witness). -/
theorem generateDomains_product_order_witness :
    generateDomains "ab" 1 0 "" "" "" [] none =
        (productCombos "ab".toList (1 : Int).toNat).map (mkDomain "" "" "") ∧
      generateDomains "ab" 2 3 "" "" ".com" [] none =
        ["aa.com", "ab.com", "ba.com"] :=
  generateDomains_product_order "ab" 1 "" "" "" (by decide)

/-- C8: a non-positive length is a configuration error — the generator
logs it and produces nothing, and `main` then returns before the DNS
stage, leaving the loaded ledger unmodified. -/
theorem generateDomains_config_error (characters : String) (len limit : Int)
    (pre suf tld : String) (excludeSet : List String) (pat : Option String)
    (ledger : List CheckRecord)
    (dnsStage : List CheckRecord → List CheckRecord)
    (h : len ≤ 0) :
    generateDomains characters len limit pre suf tld excludeSet pat = [] ∧
      generateDomainsConfigError len = true ∧
      mainLedgerAfterGenerate ledger
        (generateDomains characters len limit pre suf tld excludeSet pat)
        dnsStage = ledger := by
  have he : generateDomains characters len limit pre suf tld excludeSet pat = [] := by
    unfold generateDomains
    rw [if_pos h]
  refine ⟨he, by simp [generateDomainsConfigError, h], ?_⟩
  rw [he]
  rfl

/-- C8 (witness). -/
theorem generateDomains_config_error_witness :
    generateDomains "ab" 0 5 "" "" ".com" [] none = [] ∧
      generateDomainsConfigError 0 = true ∧
      mainLedgerAfterGenerate [] (generateDomains "ab" 0 5 "" "" ".com" [] none)
        (fun df => df) = [] :=
  generateDomains_config_error "ab" 0 5 "" "" ".com" [] none []
    (fun df => df) (by decide)

/-- C4: `dns_check` classifies resolution success as registered with no
error, "no such name" as unregistered with no error, and any other
resolution failure as registered with the error attached; it is total (no
exception escapes) and `run_dns_batch` yields one row per domain — a
probe error never aborts the batch. -/
theorem dnsCheck_classification (domain msg : String)
    (resolve : String → ResolveOutcome) (domains : List String) :
    dnsCheck domain .resolved = (domain, true, none) ∧
      dnsCheck domain .gaiError = (domain, false, none) ∧
      dnsCheck domain (.otherError msg) =
        (domain, true, some ("DNS查询错误: " ++ msg)) ∧
      (runDnsBatch resolve domains).length = domains.length := by
  exact ⟨rfl, rfl, rfl, by simp [runDnsBatch]⟩

/-! ## Claim theorems: provider result shapes -/

theorem dynParse_isSome (data : DynData) (tag okNote fmtNote regNote : String)
    (priceNote : String → String → String) :
    (dynParse data tag okNote fmtNote regNote priceNote).1.isSome = true := by
  unfold dynParse
  rcases data with ⟨error, searchResponse⟩
  rcases error with - | e
  · rcases searchResponse with - | ⟨err, results⟩
    · rfl
    · rcases err with - | e
      · rcases results with - | ⟨-, -⟩ | ⟨r, rs⟩
        · rfl
        · rfl
        · dsimp only
          split <;> rfl
      · rfl
  · rfl

theorem dynadotCheck_isSome (domain : String) (apiKey : Option String)
    (env : DynFinderHttp) :
    (dynadotCheck domain apiKey env).2.1.isSome = true := by
  unfold dynadotCheck
  split
  · rfl
  · rcases env with ⟨status, text, json⟩ | msg
    · dsimp only
      split
      · rcases json with msg | data
        · rfl
        · exact dynParse_isSome ..
      · rfl
    · rfl

theorem dynCheckDomain_isSome (env : DynApiHttp) :
    (dynCheckDomain env).1.isSome = true := by
  rcases env with ⟨status, text, json⟩ | - | msg | msg
  · unfold dynCheckDomain
    dsimp only
    split
    · rcases json with msg | data
      · rfl
      · exact dynParse_isSome ..
    · rfl
  · rfl
  · rfl
  · rfl

theorem porkbunCheck_none_iff (domain : String) (env : PbFinderHttp) :
    (porkbunCheck domain env).2.1 = none ↔
      ∃ text json, env = .resp 400 text json ∧
        containsSub text "within 10 seconds used" = true := by
  rcases env with ⟨status, text, json⟩ | msg
  · unfold porkbunCheck
    dsimp only
    constructor
    · intro hnone
      split at hnone
      · rcases json with msg | data
        · simp at hnone
        · dsimp only at hnone
          split at hnone <;> simp at hnone
      · split at hnone
        · rename_i hne h400
          refine ⟨text, json, ?_, (Bool.and_eq_true ..|>.mp h400).2⟩
          have : status = 400 := by
            have := (Bool.and_eq_true ..|>.mp h400).1
            simpa using this
          rw [this]
        · simp at hnone
    · rintro ⟨t, j, he, hsub⟩
      injection he with h1 h2 h3
      subst h1; subst h2; subst h3
      simp [hsub]
  · unfold porkbunCheck
    simp

theorem pbCheckDomain_none_iff (env : PbApiHttp) :
    (pbCheckDomain env).1 = none ↔
      ∃ text json, env = .resp 400 text json ∧
        containsSub text "within 10 seconds used" = true := by
  rcases env with ⟨status, text, json⟩ | - | msg | msg
  · unfold pbCheckDomain
    dsimp only
    constructor
    · intro hnone
      split at hnone
      · rcases json with msg | data
        · simp at hnone
        · dsimp only at hnone
          split at hnone
          · split at hnone <;> simp at hnone
          · simp at hnone
      · split at hnone
        · rename_i hne h400
          refine ⟨text, json, ?_, (Bool.and_eq_true ..|>.mp h400).2⟩
          have : status = 400 := by
            have := (Bool.and_eq_true ..|>.mp h400).1
            simpa using this
          rw [this]
        · simp at hnone
    · rintro ⟨t, j, he, hsub⟩
      injection he with h1 h2 h3
      subst h1; subst h2; subst h3
      simp [hsub]
  · simp [pbCheckDomain]
  · simp [pbCheckDomain]
  · simp [pbCheckDomain]

/-- C10: the Dynadot checkers return a definite `true`/`false`
availability for every network outcome — only the Porkbun checkers can
return the unknown value `None`, and they do so exactly when the HTTP
status is 400 and the response body contains "within 10 seconds used". -/
theorem dynadot_never_unknown_porkbun_rate_iff (domain domain2 : String)
    (apiKey : Option String) (denv : DynFinderHttp) (denv2 : DynApiHttp)
    (penv : PbFinderHttp) (penv2 : PbApiHttp) :
    (dynadotCheck domain apiKey denv).2.1.isSome = true ∧
      (dynCheckDomain denv2).1.isSome = true ∧
      ((porkbunCheck domain2 penv).2.1 = none ↔
        ∃ text json, penv = .resp 400 text json ∧
          containsSub text "within 10 seconds used" = true) ∧
      ((pbCheckDomain penv2).1 = none ↔
        ∃ text json, penv2 = .resp 400 text json ∧
          containsSub text "within 10 seconds used" = true) :=
  ⟨dynadotCheck_isSome domain apiKey denv, dynCheckDomain_isSome denv2,
    porkbunCheck_none_iff domain2 penv, pbCheckDomain_none_iff penv2⟩

/-! ## Claim theorems: lanes and circuit breaker -/

theorem processApiBatch_spec (env : Nat → ApiCallOutcome) :
    ∀ (domains : List String) (k : Nat),
      (processApiBatch env domains k).1.length = domains.length ∧
        (processApiBatch env domains k).2 = k + domains.length := by
  intro domains
  induction domains with
  | nil => intro k; simp [processApiBatch]
  | cons d rest ih =>
    intro k
    have h := ih (k + 1)
    refine ⟨?_, ?_⟩
    · show (processApiBatch env rest (k + 1)).1.length + 1 = rest.length + 1
      rw [h.1]
    · show (processApiBatch env rest (k + 1)).2 = k + (rest.length + 1)
      rw [h.2]
      omega

/-- C1 (counterexample): a parallel-strategy lane (`process_api_batch`)
fed nothing but provider-error results — whose notes even satisfy the
code's own error predicate — still issues a call for every one of its six
domains instead of stopping after five consecutive errors. -/
theorem processApiBatch_no_breaker_counterexample :
    processApiBatch (fun _ => .ok (some false) "Porkbun HTTP错误: 500")
        ["a.com", "b.com", "c.com", "d.com", "e.com", "f.com"] 0 =
      ([("a.com", some false, "Porkbun HTTP错误: 500"),
        ("b.com", some false, "Porkbun HTTP错误: 500"),
        ("c.com", some false, "Porkbun HTTP错误: 500"),
        ("d.com", some false, "Porkbun HTTP错误: 500"),
        ("e.com", some false, "Porkbun HTTP错误: 500"),
        ("f.com", some false, "Porkbun HTTP错误: 500")], 6) ∧
      errNote "Porkbun HTTP错误: 500" = true := by
  exact ⟨rfl, by decide⟩

theorem batchCheck_const_err (r : PbApiHttp)
    (he : errNote (pbCheckDomain r).2 = true)
    (hs : (pbCheckDomain r).1.isNone = false) :
    ∀ (m : Nat) (domains : List String) (k c : Nat), c < m →
      batchCheck (fun _ => r) m domains k c =
        ((domains.take (m - c)).map
            (fun d => (d, (pbCheckDomain r).1, (pbCheckDomain r).2)),
          k + min domains.length (m - c)) := by
  intro m domains
  induction domains with
  | nil => intro k c hc; simp [batchCheck]
  | cons d rest ih =>
    intro k c hc
    simp only [batchCheck, hs, Bool.false_and, Bool.false_eq_true, if_false, he,
      if_true]
    by_cases hb : c + 1 ≥ m
    · rw [if_pos hb]
      have h1 : m - c = 1 := by omega
      rw [h1, Prod.mk.injEq]
      refine ⟨by simp, ?_⟩
      simp only [List.length_cons]
      omega
    · rw [if_neg hb]
      rw [ih (k + 1) (c + 1) (by omega)]
      dsimp only
      rw [Prod.mk.injEq]
      have h1 : m - c = (m - (c + 1)) + 1 := by omega
      refine ⟨?_, ?_⟩
      · rw [h1, List.take_succ_cons, List.map_cons]
      · simp only [List.length_cons]
        omega

/-- C1 (amended): the parallel strategy's lane function
(`process_api_batch`) has no circuit breaker — it issues exactly one call
per queued domain whatever the results are; the consecutive-error abort
(default five) that keeps already-obtained results is implemented in the
provider client's own `batch_check` (`PorkbunAPI.batch_check`), which the
parallel strategy does not invoke. -/
theorem laneBreaker_in_batchCheck_not_processApiBatch
    (env : Nat → ApiCallOutcome) (qdomains : List String) (qk : Nat)
    (r : PbApiHttp) (m : Nat) (domains : List String) (k c : Nat)
    (he : errNote (pbCheckDomain r).2 = true)
    (hs : (pbCheckDomain r).1.isNone = false) (hc : c < m) :
    ((processApiBatch env qdomains qk).1.length = qdomains.length ∧
        (processApiBatch env qdomains qk).2 = qk + qdomains.length) ∧
      batchCheck (fun _ => r) m domains k c =
        ((domains.take (m - c)).map
            (fun d => (d, (pbCheckDomain r).1, (pbCheckDomain r).2)),
          k + min domains.length (m - c)) :=
  ⟨processApiBatch_spec env qdomains qk,
    batchCheck_const_err r he hs m domains k c hc⟩

/-- C1 (witness for the amended theorem). -/
theorem laneBreaker_witness :
    ((processApiBatch (fun _ => ApiCallOutcome.exc "boom") ["x.com"] 0).1.length =
          ["x.com"].length ∧
        (processApiBatch (fun _ => ApiCallOutcome.exc "boom") ["x.com"] 0).2 =
          0 + ["x.com"].length) ∧
      batchCheck (fun _ => PbApiHttp.reqExc "conn reset") 5
          ["a.com", "b.com", "c.com", "d.com", "e.com", "f.com"] 0 0 =
        ((["a.com", "b.com", "c.com", "d.com", "e.com", "f.com"].take 5).map
            (fun d => (d, (pbCheckDomain (PbApiHttp.reqExc "conn reset")).1,
              (pbCheckDomain (PbApiHttp.reqExc "conn reset")).2)),
          0 + min ["a.com", "b.com", "c.com", "d.com", "e.com", "f.com"].length 5) :=
  laneBreaker_in_batchCheck_not_processApiBatch
    (fun _ => ApiCallOutcome.exc "boom") ["x.com"] 0
    (PbApiHttp.reqExc "conn reset") 5
    ["a.com", "b.com", "c.com", "d.com", "e.com", "f.com"] 0 0
    (by decide) (by decide) (by decide)

/-! ## Claim theorems: rate-limit unknown handling -/

/-- C5 (counterexample): in the parallel strategy, a rate-limited unknown
result is recorded as the domain's result with a single call and no
retry — contradicting the claim that both strategies back off and retry
instead of recording it. -/
theorem processApiBatch_records_unknown_counterexample :
    processApiBatch (fun _ => .ok none "Porkbun速率限制") ["a.com"] 0 =
      ([("a.com", none, "Porkbun速率限制")], 1) := rfl

/-- C5 (amended): the sequential verifier reacts to a rate-limited
unknown result by not recording it, backing off, and retrying once — the
ledger update for that domain comes from the retry, which consumes call
`k+1`; the parallel strategy's lane instead records the unknown result
directly with no retry. -/
theorem rateLimit_retry_sequential_not_parallel
    (env env2 : Nat → ApiCallOutcome) (df : List CheckRecord)
    (d d2 : String) (rest rest2 : List String) (k k2 : Nat)
    (note n2 note2 : String) (a2 : Option Bool)
    (h1 : env k = .ok none note)
    (hsub : containsSub note "速率限制" = true)
    (h2 : env (k + 1) = .ok a2 n2)
    (h3 : env2 k2 = .ok none note2) :
    runSeqVerify env (d :: rest) df k =
        runSeqVerify env rest (seqUpdate df d a2 n2) (k + 2) ∧
      processApiBatch env2 (d2 :: rest2) k2 =
        ((d2, none, note2) :: (processApiBatch env2 rest2 (k2 + 1)).1,
          (processApiBatch env2 rest2 (k2 + 1)).2) := by
  constructor
  · rw [runSeqVerify, h1]
    dsimp only
    rw [if_pos (by simp [hsub]), h2]
  · rw [processApiBatch, h3]

/-- C5 (witness for the amended theorem). -/
theorem rateLimit_retry_witness :
    runSeqVerify
        (fun k => if k = 0 then ApiCallOutcome.ok none "Porkbun速率限制"
          else ApiCallOutcome.ok (some true) "价格: 1")
        ["a.com"] [] 0 =
        runSeqVerify
          (fun k => if k = 0 then ApiCallOutcome.ok none "Porkbun速率限制"
            else ApiCallOutcome.ok (some true) "价格: 1")
          [] (seqUpdate [] "a.com" (some true) "价格: 1") 2 ∧
      processApiBatch (fun _ => ApiCallOutcome.ok none "Porkbun速率限制")
          ["b.com"] 0 =
        (("b.com", none, "Porkbun速率限制") ::
            (processApiBatch (fun _ => ApiCallOutcome.ok none "Porkbun速率限制")
              [] 1).1,
          (processApiBatch (fun _ => ApiCallOutcome.ok none "Porkbun速率限制")
            [] 1).2) :=
  rateLimit_retry_sequential_not_parallel
    (fun k => if k = 0 then ApiCallOutcome.ok none "Porkbun速率限制"
      else ApiCallOutcome.ok (some true) "价格: 1")
    (fun _ => ApiCallOutcome.ok none "Porkbun速率限制")
    [] "a.com" "b.com" [] [] 0 0 "Porkbun速率限制" "价格: 1"
    "Porkbun速率限制" (some true) rfl (by decide) rfl rfl

/-! ## Claim theorems: ledger monotonicity -/

theorem get?_map_preserves (df : List CheckRecord)
    (f : CheckRecord → CheckRecord)
    (hf : ∀ q, q.api_verified = true → (f q).api_verified = true)
    (i : Nat) (r : CheckRecord) (h : df.get? i = some r)
    (hv : r.api_verified = true) :
    ∃ r', (df.map f).get? i = some r' ∧ r'.api_verified = true :=
  ⟨f r, by rw [List.get?_map, h]; rfl, hf r hv⟩

theorem seqUpdate_preserves (df : List CheckRecord) (domain : String)
    (avail : Option Bool) (note : String) (i : Nat) (r : CheckRecord)
    (h : df.get? i = some r) (hv : r.api_verified = true) :
    ∃ r', (seqUpdate df domain avail note).get? i = some r' ∧
      r'.api_verified = true := by
  refine get?_map_preserves df _ ?_ i r h hv
  intro q hq
  dsimp only
  split
  · rfl
  · exact hq

theorem runSeqVerify_preserves (env : Nat → ApiCallOutcome) :
    ∀ (domains : List String) (df : List CheckRecord) (k i : Nat)
      (r : CheckRecord), df.get? i = some r → r.api_verified = true →
      ∃ r', (runSeqVerify env domains df k).1.get? i = some r' ∧
        r'.api_verified = true := by
  intro domains
  induction domains with
  | nil => intro df k i r h hv; exact ⟨r, h, hv⟩
  | cons d rest ih =>
    intro df k i r h hv
    rw [runSeqVerify]
    rcases henv : env k with ⟨avail, note⟩ | msg
    · dsimp only
      split
      · rcases henv2 : env (k + 1) with ⟨a2, n2⟩ | m2
        · obtain ⟨r1, h1, hv1⟩ := seqUpdate_preserves df d a2 n2 i r h hv
          exact ih (seqUpdate df d a2 n2) (k + 2) i r1 h1 hv1
        · exact ih df (k + 2) i r h hv
      · obtain ⟨r1, h1, hv1⟩ := seqUpdate_preserves df d avail note i r h hv
        exact ih (seqUpdate df d avail note) (k + 1) i r1 h1 hv1
    · exact ih df (k + 1) i r h hv

theorem parallelMerge_preserves :
    ∀ (results : List (String × Option Bool × String))
      (df : List CheckRecord) (i : Nat) (r : CheckRecord),
      df.get? i = some r → r.api_verified = true →
      ∃ r', (parallelMerge df results).get? i = some r' ∧
        r'.api_verified = true := by
  intro results
  induction results with
  | nil => intro df i r h hv; exact ⟨r, h, hv⟩
  | cons res rs ih =>
    intro df i r h hv
    have hstep : ∃ r1, (parallelMergeStep df res).get? i = some r1 ∧
        r1.api_verified = true := by
      refine get?_map_preserves df _ ?_ i r h hv
      intro q hq
      dsimp only
      split
      · rfl
      · exact hq
    obtain ⟨r1, h1, hv1⟩ := hstep
    exact ih (parallelMergeStep df res) i r1 h1 hv1

/-- C2: `api_verified` only ever moves `false → true`.  A row that has
`api_verified = true` keeps it `true` (at the same row position) through
the sequential verifier's per-domain update, a whole sequential
verification run, the parallel merge of lane results, and the DNS stage's
row append. -/
theorem apiVerified_monotone (df : List CheckRecord) (i : Nat)
    (r : CheckRecord) (domain : String) (avail : Option Bool) (note : String)
    (env : Nat → ApiCallOutcome) (domains : List String) (k : Nat)
    (results : List (String × Option Bool × String)) (rows : List CheckRecord)
    (hr : df.get? i = some r) (hv : r.api_verified = true) :
    ((seqUpdate df domain avail note).get? i).map CheckRecord.api_verified =
        some true ∧
      ((runSeqVerify env domains df k).1.get? i).map CheckRecord.api_verified =
        some true ∧
      ((parallelMerge df results).get? i).map CheckRecord.api_verified =
        some true ∧
      ((dnsConcat df rows).get? i).map CheckRecord.api_verified = some true := by
  obtain ⟨r1, h1, hv1⟩ := seqUpdate_preserves df domain avail note i r hr hv
  obtain ⟨r2, h2, hv2⟩ := runSeqVerify_preserves env domains df k i r hr hv
  obtain ⟨r3, h3, hv3⟩ := parallelMerge_preserves results df i r hr hv
  have hlt : i < df.length := by
    by_contra hge
    rw [List.get?_eq_none.mpr (by omega)] at hr
    exact Option.noConfusion hr
  refine ⟨by rw [h1]; simp [hv1], by rw [h2]; simp [hv2],
    by rw [h3]; simp [hv3], ?_⟩
  rw [dnsConcat, List.get?_append hlt, hr]
  simp [hv]

/-- C2 (witness). -/
theorem apiVerified_monotone_witness :
    ((seqUpdate [⟨"a.com", true, true, some true, "n"⟩] "a.com" (some false)
          "x").get? 0).map CheckRecord.api_verified = some true ∧
      ((runSeqVerify (fun _ => ApiCallOutcome.exc "boom") ["a.com"]
            [⟨"a.com", true, true, some true, "n"⟩] 0).1.get? 0).map
          CheckRecord.api_verified = some true ∧
      ((parallelMerge [⟨"a.com", true, true, some true, "n"⟩]
            [("a.com", none, "rate")]).get? 0).map CheckRecord.api_verified =
        some true ∧
      ((dnsConcat [⟨"a.com", true, true, some true, "n"⟩]
            [⟨"b.com", true, false, some true, "m"⟩]).get? 0).map
          CheckRecord.api_verified = some true :=
  apiVerified_monotone [⟨"a.com", true, true, some true, "n"⟩] 0
    ⟨"a.com", true, true, some true, "n"⟩ "a.com" (some false) "x"
    (fun _ => ApiCallOutcome.exc "boom") ["a.com"] 0 [("a.com", none, "rate")]
    [⟨"b.com", true, false, some true, "m"⟩] rfl rfl

/-! ## Claim theorems: ledger load back-fill -/

theorem loadedColumns_eq (cols : List String) :
    loadedColumns cols =
      cols ++ requiredColumns.filter (fun c => !(cols.contains c)) := by
  rw [loadedColumns, ensureRequired, List.map_append, List.map_map]
  congr 1
  · induction cols with
    | nil => rfl
    | cons a t ih2 => exact congrArg (List.cons a) ih2
  · induction requiredColumns with
    | nil => rfl
    | cons a t ih =>
      by_cases h : a ∈ cols
      · simp only [List.filterMap_cons, List.filter_cons] at ih ⊢
        simp [h]
        simpa using ih
      · simp only [List.filterMap_cons, List.filter_cons] at ih ⊢
        simp [h]
        simpa using ih

/-- C7 (counterexample): a ledger file whose table has exactly the
columns `domain, dns_checked, api_verified, available` — i.e. lacking the
expected `note` column — loads without `note` being back-filled, so the
claim that every missing expected field among the five is back-filled
fails on the code. -/
theorem load_note_not_backfilled_counterexample :
    loadedColumns ["domain", "dns_checked", "api_verified", "available"] =
        ["domain", "dns_checked", "api_verified", "available"] ∧
      ¬ ("note" ∈
        loadedColumns ["domain", "dns_checked", "api_verified", "available"]) := by
  exact ⟨by decide, by decide⟩

/-- C7 (amended): loading back-fills exactly the four columns `domain`,
`dns_checked`, `api_verified`, `available` (the `domain` column with the
empty string, the boolean columns with `False`); the `note` column is
never back-filled — it is present after loading exactly when the file had
it. -/
theorem load_backfills_required_not_note (cols : List String) (c : String)
    (hc : c ∈ requiredColumns) (hnc : c ∉ cols) :
    c ∈ loadedColumns cols ∧
      ("note" ∈ loadedColumns cols ↔ "note" ∈ cols) ∧
      (c, ColContent.filled (if c == "domain" then CellValue.str ""
        else CellValue.boolVal false)) ∈ ensureRequired cols := by
  refine ⟨?_, ?_, ?_⟩
  · rw [loadedColumns_eq, List.mem_append]
    refine Or.inr (List.mem_filter.mpr ⟨hc, ?_⟩)
    simp [hnc]
  · rw [loadedColumns_eq, List.mem_append]
    constructor
    · rintro (h | h)
      · exact h
      · exact absurd (List.mem_filter.mp h).1 (by decide)
    · exact Or.inl
  · rw [ensureRequired, List.mem_append]
    refine Or.inr (List.mem_filterMap.mpr ⟨c, hc, ?_⟩)
    rw [if_neg (by simpa using hnc)]

/-- C7 (witness for the amended theorem). -/
theorem load_backfills_witness :
    "available" ∈ loadedColumns ["domain"] ∧
      ("note" ∈ loadedColumns ["domain"] ↔ "note" ∈ ["domain"]) ∧
      ("available", ColContent.filled (if "available" == "domain" then
        CellValue.str "" else CellValue.boolVal false)) ∈
          ensureRequired ["domain"] :=
  load_backfills_required_not_note ["domain"] "available" (by decide)
    (by decide)

/-! ## Claim theorems: provider rate limiting -/

theorem respectRateLimit_now (rl : ℚ) (st : RateState) :
    st.last + rl ≤ (respectRateLimit rl st).now ∧
      st.now ≤ (respectRateLimit rl st).now ∧
      (respectRateLimit rl st).last = (respectRateLimit rl st).now := by
  rw [respectRateLimit]
  dsimp only
  split
  · rename_i h
    refine ⟨by linarith, by linarith, rfl⟩
  · rename_i h
    refine ⟨by linarith, le_refl _, rfl⟩

theorem laneRun_chain (rl : ℚ) :
    ∀ (ds : List ℚ) (st : RateState),
      List.Chain' (fun a b => a + rl ≤ b) (laneRun rl ds st).1 ∧
        ∀ t, (laneRun rl ds st).1.head? = some t →
          st.last + rl ≤ t ∧ st.now ≤ t := by
  intro ds
  induction ds with
  | nil =>
    intro st
    exact ⟨List.chain'_nil, by intro t ht; simp [laneRun] at ht⟩
  | cons d rest ih =>
    intro st
    have hspec := respectRateLimit_now rl st
    have hih := ih ⟨(respectRateLimit rl st).now + d, (respectRateLimit rl st).last⟩
    constructor
    · rw [laneRun]
      dsimp only
      rw [List.chain'_cons']
      refine ⟨?_, hih.1⟩
      intro b hb
      have := (hih.2 b (by simpa using hb)).1
      dsimp only at this
      calc (respectRateLimit rl st).now + rl
          = (respectRateLimit rl st).last + rl := by rw [hspec.2.2]
        _ ≤ b := this
    · intro t ht
      rw [laneRun] at ht
      dsimp only at ht
      rw [List.head?_cons, Option.some.injEq] at ht
      subst ht
      exact ⟨hspec.1, hspec.2.1⟩

theorem laneRun_final (rl : ℚ) :
    ∀ (ds : List ℚ) (st : RateState), (∀ x ∈ ds, 0 ≤ x) →
      st.now ≤ (laneRun rl ds st).2.now ∧
        (ds ≠ [] →
          st.last + ds.length * rl ≤ (laneRun rl ds st).2.now ∧
          st.now + ((ds.length : ℚ) - 1) * rl ≤ (laneRun rl ds st).2.now) := by
  intro ds
  induction ds with
  | nil =>
    intro st _
    exact ⟨le_refl _, fun h => absurd rfl h⟩
  | cons d rest ih =>
    intro st hpos
    have hd : (0 : ℚ) ≤ d := hpos d (List.mem_cons_self d rest)
    have hspec := respectRateLimit_now rl st
    have hih := ih ⟨(respectRateLimit rl st).now + d, (respectRateLimit rl st).last⟩
      (fun x hx => hpos x (List.mem_cons_of_mem d hx))
    dsimp only at hih
    have e2 : (laneRun rl (d :: rest) st).2 =
        (laneRun rl rest
          ⟨(respectRateLimit rl st).now + d, (respectRateLimit rl st).last⟩).2 := rfl
    rw [e2]
    rcases eq_or_ne rest [] with hnil | hne
    · subst hnil
      have efin : (laneRun rl ([] : List ℚ)
          ⟨(respectRateLimit rl st).now + d, (respectRateLimit rl st).last⟩).2.now =
          (respectRateLimit rl st).now + d := rfl
      rw [efin]
      have hlen : ((d :: ([] : List ℚ)).length : ℚ) = 1 := by norm_num
      refine ⟨by linarith [hspec.2.1], fun _ => ⟨?_, ?_⟩⟩
      · rw [hlen]
        linarith [hspec.1]
      · rw [hlen]
        linarith [hspec.2.1]
    · have hr2 := hih.2 hne
      refine ⟨?_, fun _ => ⟨?_, ?_⟩⟩
      · linarith [hspec.2.1, hih.1]
      · push_cast [List.length_cons]
        push_cast [List.length_cons] at hr2
        linarith [hspec.1, hr2.1, hspec.2.2]
      · push_cast [List.length_cons]
        push_cast [List.length_cons] at hr2
        linarith [hspec.2.1, hr2.1, hspec.2.2]

/-- C9: within one provider lane, consecutive request issue times are
separated by at least the provider's minimum interval `rl` (a call issued
early blocks until the interval has elapsed), and `N` consecutive calls
take wall-clock time at least `(N - 1) × rl`. -/
theorem providerRateLimit_spacing (rl : ℚ) (durations : List ℚ)
    (st : RateState) (hpos : ∀ x ∈ durations, 0 ≤ x)
    (hne : durations ≠ []) :
    List.Chain' (fun a b => a + rl ≤ b) (laneRun rl durations st).1 ∧
      st.now + ((durations.length : ℚ) - 1) * rl ≤
        (laneRun rl durations st).2.now :=
  ⟨(laneRun_chain rl durations st).1,
    ((laneRun_final rl durations st hpos).2 hne).2⟩

/-- C9 (witness): three Porkbun calls (interval 11 s) starting at the
epoch with network durations 1, 2, 3 s. -/
theorem providerRateLimit_spacing_witness :
    List.Chain' (fun a b => a + (11 : ℚ) ≤ b)
        (laneRun 11 [1, 2, 3] { now := 0, last := 0 }).1 ∧
      (0 : ℚ) + (((3 : Nat) : ℚ) - 1) * 11 ≤
        (laneRun 11 [1, 2, 3] { now := 0, last := 0 }).2.now := by
  have h := providerRateLimit_spacing 11 [1, 2, 3] { now := 0, last := 0 }
    (by intro x hx; fin_cases hx <;> norm_num) (by simp)
  simpa using h

end DomainFinder
